import Mathlib

/-!
Shallow embedding of the multi-object tracking / accident-fusion engine of
`services/ai-detection-service/main.py` (class `OptimizedVehicleTracker` and
class `Track`), together with proofs of the specification's claims.

Modelling conventions:
* Python floats are modelled as `ℚ` (every float literal in the source is a
  rational number, and no claim under study depends on rounding).
* Frame indices are `ℤ` (Python ints).
* Python `deque(maxlen=n)` is modelled by `dequeAppend`, which drops the
  oldest element when the capacity is reached.
* Library functions external to the repository (numpy's `sqrt`, the
  `degrees ∘ arccos` composite, and scipy's `linear_sum_assignment`) are
  inputs of the engine, bundled in the `Ext` structure; theorems either hold
  for every choice of these functions or use the concrete executable
  instances `qsqrt` / `lsaBrute` defined below.
-/

namespace AccDet

/-- Append to a bounded FIFO of capacity `cap` (Python `deque(maxlen=cap)`):
when the buffer is full the oldest (leftmost) element is evicted. -/
def dequeAppend (cap : ℕ) (xs : List α) (x : α) : List α :=
  if xs.length < cap then xs ++ [x] else xs.tail ++ [x]

/-- Python `xs[-n:]`. -/
def takeLast (n : ℕ) (xs : List α) : List α :=
  xs.drop (xs.length - n)

/-- Python `xs[-1]` with an (unreachable in the source) default. -/
def last1 (xs : List α) (d : α) : α := xs.getLastD d

/-- Python `xs[-2]` with an (unreachable in the source) default. -/
def last2 (xs : List α) (d : α) : α := xs.dropLast.getLastD d

/-- In-place update of a list cell (Python `lst[i] = f(lst[i])`). -/
def listModify : List α → ℕ → (α → α) → List α
  | [], _, _ => []
  | a :: as, 0, f => f a :: as
  | a :: as, n + 1, f => a :: listModify as n f

/-- Python `max(xs)` for a non-empty list (junk value `0`-like default on
`[]`, never hit in the source because of emptiness guards). -/
def listMax (xs : List ℚ) : ℚ := xs.foldl max (xs.headD 0)

/-- Adding an element to a Python `set` modelled as a duplicate-free list. -/
def setAdd (xs : List ℤ) (x : ℤ) : List ℤ :=
  if x ∈ xs then xs else xs ++ [x]

/-- `np.clip x lo hi`. -/
def clip (x lo hi : ℚ) : ℚ := min (max x lo) hi

/-- One normalized detection record, the dict built in
`OptimizedVehicleTracker.process_frame` (keys `x`, `y`, `width`, `height`,
`bbox`, `confidence`, `class`). -/
structure Detection where
  x : ℚ
  y : ℚ
  width : ℚ
  height : ℚ
  bbox : ℚ × ℚ × ℚ × ℚ
  confidence : ℚ
  class_name : String
  deriving Repr, DecidableEq, Inhabited

/-- Class `Track` of `main.py`: bounded history plus lifecycle counters. -/
structure Track where
  track_id : ℕ
  class_name : String
  positions : List (ℚ × ℚ)
  frames : List ℤ
  confidences : List ℚ
  bboxes : List (ℚ × ℚ × ℚ × ℚ)
  velocities : List ℚ
  accelerations : List ℚ
  age : ℕ
  time_since_update : ℕ
  hits : ℕ
  hit_streak : ℕ
  deriving Repr, DecidableEq, Inhabited

/-- `Track.__init__`. -/
def Track.init (track_id : ℕ) (detection : Detection) (frame_idx : ℤ) : Track :=
  { track_id := track_id
    class_name := detection.class_name
    positions := [(detection.x, detection.y)]
    frames := [frame_idx]
    confidences := [detection.confidence]
    bboxes := [detection.bbox]
    velocities := []
    accelerations := []
    age := 0
    time_since_update := 0
    hits := 1
    hit_streak := 1 }

/-- `Track.update`: append to every history buffer; derive velocity (numpy
`sqrt` supplied as `ssqrt`) and acceleration when enough points exist;
bump `hits`/`hit_streak`; clear `time_since_update`. -/
def Track.update (ssqrt : ℚ → ℚ) (t : Track) (detection : Detection)
    (frame_idx : ℤ) : Track :=
  let positions := dequeAppend 30 t.positions (detection.x, detection.y)
  let frames := dequeAppend 30 t.frames frame_idx
  let confidences := dequeAppend 30 t.confidences detection.confidence
  let bboxes := dequeAppend 30 t.bboxes detection.bbox
  let va : List ℚ × List ℚ :=
    if 2 ≤ positions.length then
      let frame_diff : ℤ := last1 frames 0 - last2 frames 0
      if 0 < frame_diff then
        let dx := (last1 positions (0, 0)).1 - (last2 positions (0, 0)).1
        let dy := (last1 positions (0, 0)).2 - (last2 positions (0, 0)).2
        let velocity := ssqrt (dx ^ 2 + dy ^ 2) / (frame_diff : ℚ)
        let velocities := dequeAppend 29 t.velocities velocity
        if 2 ≤ velocities.length then
          let dv := last1 velocities 0 - last2 velocities 0
          let acceleration := dv / (frame_diff : ℚ)
          (velocities, dequeAppend 28 t.accelerations acceleration)
        else (velocities, t.accelerations)
      else (t.velocities, t.accelerations)
    else (t.velocities, t.accelerations)
  { t with
    positions := positions
    frames := frames
    confidences := confidences
    bboxes := bboxes
    velocities := va.1
    accelerations := va.2
    hits := t.hits + 1
    hit_streak := t.hit_streak + 1
    time_since_update := 0 }

/-- `Track.predict`: constant-velocity linear extrapolation from the last
two of the most recent (up to three) recorded positions. -/
def Track.predict (t : Track) (frame_idx : ℤ) : ℚ × ℚ :=
  if t.positions.length < 2 then last1 t.positions (0, 0)
  else
    let recent_positions := takeLast 3 t.positions
    let recent_frames := takeLast 3 t.frames
    if 2 ≤ recent_positions.length then
      let dx := (last1 recent_positions (0, 0)).1 - (last2 recent_positions (0, 0)).1
      let dy := (last1 recent_positions (0, 0)).2 - (last2 recent_positions (0, 0)).2
      let frame_diff : ℤ := frame_idx - last1 recent_frames 0
      ((last1 recent_positions (0, 0)).1 + dx * (frame_diff : ℚ),
       (last1 recent_positions (0, 0)).2 + dy * (frame_diff : ℚ))
    else last1 t.positions (0, 0)

/-- `Track.get_current_velocity`. -/
def Track.get_current_velocity (t : Track) : ℚ :=
  if t.velocities.length = 0 then 0 else last1 t.velocities 0

/-- `Track.mark_missed`. -/
def Track.mark_missed (t : Track) : Track :=
  { t with
    time_since_update := t.time_since_update + 1
    hit_streak := 0
    age := t.age + 1 }

/-- The `track.age += 1` performed on every live track at the start of
`process_frame`. -/
def Track.ageTick (t : Track) : Track := { t with age := t.age + 1 }

/-- `OptimizedVehicleTracker.VEHICLE_CLASSES`. -/
def VEHICLE_CLASSES : List String := ["car", "truck", "bus", "motorcycle", "bicycle"]

/-- Constructor parameters of `OptimizedVehicleTracker`. -/
structure TrackerCfg where
  confidence_threshold : ℚ := 0.35
  max_age : ℕ := 3
  min_hits : ℕ := 2
  iou_threshold : ℚ := 0.3
  max_tracking_distance : ℚ := 100.0
  collision_iou_threshold : ℚ := 0.05
  sudden_stop_threshold : ℚ := -10.0
  clustering_distance : ℚ := 80.0
  erratic_angle_threshold : ℚ := 60.0
  deriving Repr, DecidableEq, Inhabited

/-- Mutable state of an `OptimizedVehicleTracker` instance:
`self.tracks`, `self.next_track_id`, and the dict `self.frame_detections`
(modelled as an insertion-ordered association list with unique keys). -/
structure TrackerState where
  tracks : List Track
  next_track_id : ℕ
  frame_detections : List (ℤ × List Detection)
  deriving Repr, DecidableEq, Inhabited

/-- The fresh state built by `OptimizedVehicleTracker.__init__`. -/
def TrackerState.init : TrackerState :=
  { tracks := [], next_track_id := 0, frame_detections := [] }

/-- Dict store `self.frame_detections[k] = v` (overwrite or insert). -/
def fdSet (fd : List (ℤ × List Detection)) (k : ℤ) (v : List Detection) :
    List (ℤ × List Detection) :=
  if fd.any (fun p => p.1 = k) then
    fd.map (fun p => if p.1 = k then (k, v) else p)
  else fd ++ [(k, v)]

/-- Dict read `self.frame_detections.get(k, [])` — a plain, non-mutating
`dict.get`; it is paired with the (unchanged) dict so that the absence of a
`defaultdict` insertion is part of the model. -/
def fdGet (fd : List (ℤ × List Detection)) (k : ℤ) :
    List Detection × List (ℤ × List Detection) :=
  (((fd.find? (fun p => p.1 = k)).map Prod.snd).getD [], fd)

/-- `defaultdict(list).__getitem__`: inserts an empty entry on a missing
key. `detect_vehicle_clustering` deliberately does NOT use this. -/
def fdGetItem (fd : List (ℤ × List Detection)) (k : ℤ) :
    List Detection × List (ℤ × List Detection) :=
  match fd.find? (fun p => p.1 = k) with
  | some p => (p.2, fd)
  | none => ([], fd ++ [(k, [])])

/-- `sorted(self.frame_detections.keys())`. -/
def sortedKeys (fd : List (ℤ × List Detection)) : List ℤ :=
  (fd.map Prod.fst).insertionSort (· ≤ ·)

/-- External library functions used by the engine: numpy/scipy's `sqrt`
(also the square root inside `scipy.spatial.distance.euclidean` and
`np.linalg.norm`), the composite `np.degrees ∘ np.arccos`, and
`scipy.optimize.linear_sum_assignment` (returning the zipped
(row, column) pairs). -/
structure Ext where
  sqrt : ℚ → ℚ
  acosd : ℚ → ℚ
  lsa : List (List ℚ) → List (ℕ × ℕ)

/-- `scipy.spatial.distance.euclidean`. -/
def euclid (ssqrt : ℚ → ℚ) (p q : ℚ × ℚ) : ℚ :=
  ssqrt ((p.1 - q.1) ^ 2 + (p.2 - q.2) ^ 2)

/-- `OptimizedVehicleTracker.calculate_iou`. -/
def calculate_iou (bbox1 bbox2 : ℚ × ℚ × ℚ × ℚ) : ℚ :=
  let x1 := bbox1.1
  let y1 := bbox1.2.1
  let w1 := bbox1.2.2.1
  let h1 := bbox1.2.2.2
  let x2 := bbox2.1
  let y2 := bbox2.2.1
  let w2 := bbox2.2.2.1
  let h2 := bbox2.2.2.2
  let x_left := max x1 x2
  let y_top := max y1 y2
  let x_right := min (x1 + w1) (x2 + w2)
  let y_bottom := min (y1 + h1) (y2 + h2)
  if x_right < x_left ∨ y_bottom < y_top then 0
  else
    let intersection := (x_right - x_left) * (y_bottom - y_top)
    let box1_area := (x1 + w1 - x1) * (y1 + h1 - y1)
    let box2_area := (x2 + w2 - x2) * (y2 + h2 - y2)
    let union := box1_area + box2_area - intersection
    if 0 < union then intersection / union else 0

/-- The intersection term of `calculate_iou` (value relevant on the
overlap path). -/
def iouIntersection (bbox1 bbox2 : ℚ × ℚ × ℚ × ℚ) : ℚ :=
  (min (bbox1.1 + bbox1.2.2.1) (bbox2.1 + bbox2.2.2.1) - max bbox1.1 bbox2.1) *
    (min (bbox1.2.1 + bbox1.2.2.2) (bbox2.2.1 + bbox2.2.2.2) - max bbox1.2.1 bbox2.2.1)

/-- The union term `box1_area + box2_area - intersection` of
`calculate_iou`. -/
def iouUnion (bbox1 bbox2 : ℚ × ℚ × ℚ × ℚ) : ℚ :=
  bbox1.2.2.1 * bbox1.2.2.2 + bbox2.2.2.1 * bbox2.2.2.2 - iouIntersection bbox1 bbox2

/-- `OptimizedVehicleTracker.calculate_cost_matrix`: the track×detection
cost matrix as a list of rows (`np.array([])` on either empty input). -/
def calculate_cost_matrix (E : Ext) (cfg : TrackerCfg) (tracks : List Track)
    (detections : List Detection) (frame_idx : ℤ) : List (List ℚ) :=
  if tracks.length = 0 ∨ detections.length = 0 then []
  else
    tracks.map (fun track =>
      let predicted_pos := track.predict frame_idx
      detections.map (fun detection =>
        let det_pos := (detection.x, detection.y)
        let position_dist := euclid E.sqrt predicted_pos det_pos
        let iou := calculate_iou (last1 track.bboxes (0, 0, 0, 0)) detection.bbox
        let iou_cost := 1.0 - iou
        let class_match : ℚ := if track.class_name = detection.class_name then 1.0 else 2.0
        0.5 * (position_dist / cfg.max_tracking_distance) +
          0.3 * iou_cost + 0.2 * class_match))

/-- Entry `(i, j)` of a cost matrix (junk `0` out of bounds; scipy's output
indices are always in bounds). -/
def matEntry (m : List (List ℚ)) (i j : ℕ) : ℚ := (m.getD i []).getD j 0

/-- The detection-normalization loop at the top of
`OptimizedVehicleTracker.process_frame`: vehicle-class and confidence
filter, centre computation, and Y-axis inversion. -/
def normalizeDetections (cfg : TrackerCfg) (boxes : List (ℚ × ℚ × ℚ × ℚ))
    (confidences : List ℚ) (class_names : List String) : List Detection :=
  (boxes.zip (confidences.zip class_names)).filterMap (fun bcc =>
    let conf := bcc.2.1
    let cn := bcc.2.2
    if ¬ VEHICLE_CLASSES.contains cn then none
    else if conf < cfg.confidence_threshold then none
    else
      let x := bcc.1.1
      let y := bcc.1.2.1
      let x2 := bcc.1.2.2.1
      let y2 := bcc.1.2.2.2
      some { x := (x + x2) / 2
             y := -((y + y2) / 2)
             width := x2 - x
             height := y2 - y
             bbox := (x, -y2, x2 - x, y2 - y)
             confidence := conf
             class_name := cn })

/-- The association/update/creation phase of `process_frame` (everything
between the aging loop and the prune filter), acting on the already-aged
track list and the normalized detections; returns the pre-prune track list
and the new `next_track_id`. -/
def process_frame_core (E : Ext) (cfg : TrackerCfg) (tracks1 : List Track)
    (detections : List Detection) (next_id : ℕ) (frame_idx : ℤ) :
    List Track × ℕ :=
  if 0 < tracks1.length ∧ 0 < detections.length then
    let cost_matrix := calculate_cost_matrix E cfg tracks1 detections frame_idx
    let pairs := E.lsa cost_matrix
    let accepted := pairs.filter (fun p => matEntry cost_matrix p.1 p.2 < 0.6)
    let tracks2 := accepted.foldl
      (fun ts p =>
        listModify ts p.1 (fun t => t.update E.sqrt (detections.getD p.2 default) frame_idx))
      tracks1
    let matched_tracks := accepted.map Prod.fst
    let tracks3 := tracks2.enum.map
      (fun it => if matched_tracks.contains it.1 then it.2 else it.2.mark_missed)
    let matched_detections := accepted.map Prod.snd
    (List.range detections.length).foldl
      (fun acc j =>
        if matched_detections.contains j then acc
        else (acc.1 ++ [Track.init acc.2 (detections.getD j default) frame_idx], acc.2 + 1))
      (tracks3, next_id)
  else if 0 < detections.length then
    detections.foldl
      (fun acc d => (acc.1 ++ [Track.init acc.2 d frame_idx], acc.2 + 1))
      (tracks1, next_id)
  else (tracks1, next_id)

/-- The prune predicate of `process_frame`: a track is KEPT iff
`time_since_update < max_age or hits >= min_hits`. -/
def keepTrack (cfg : TrackerCfg) (t : Track) : Prop :=
  t.time_since_update < cfg.max_age ∨ cfg.min_hits ≤ t.hits

instance (cfg : TrackerCfg) (t : Track) : Decidable (keepTrack cfg t) := by
  unfold keepTrack; infer_instance

/-- `OptimizedVehicleTracker.process_frame`: returns the new tracker state
together with the returned "active tracks" list. -/
def process_frame (E : Ext) (cfg : TrackerCfg) (s : TrackerState)
    (boxes : List (ℚ × ℚ × ℚ × ℚ)) (confidences : List ℚ)
    (class_names : List String) (frame_idx : ℤ) :
    TrackerState × List Track :=
  let detections := normalizeDetections cfg boxes confidences class_names
  let fd := fdSet s.frame_detections frame_idx detections
  let tracks1 := s.tracks.map Track.ageTick
  let core := process_frame_core E cfg tracks1 detections s.next_track_id frame_idx
  let kept := core.1.filter (fun t => decide (keepTrack cfg t))
  ({ tracks := kept, next_track_id := core.2, frame_detections := fd },
   kept.filter (fun t => decide (cfg.min_hits ≤ t.hits ∨ t.age < cfg.min_hits)))

/-- Type-specific payload of an accident indicator dict. -/
inductive Payload where
  | collision (track_ids : ℕ × ℕ) (vehicle_classes : String × String) (iou : ℚ)
  | suddenStop (track_id : ℕ) (vehicle_class : String) (velocity_change : ℚ)
  | clustering (vehicle_count : ℕ) (close_pairs : ℕ)
  | erraticTrajectory (track_id : ℕ) (vehicle_class : String)
      (max_angle_change : ℚ) (avg_angle_change : ℚ)
  deriving Repr, DecidableEq

instance : Inhabited Payload := ⟨Payload.clustering 0 0⟩

/-- One accident-indicator dict: the common keys `type`, `frame`,
`confidence` plus the type-specific payload. -/
structure Indicator where
  type : String
  frame : ℤ
  confidence : ℚ
  payload : Payload
  deriving Repr, DecidableEq, Inhabited

/-- `OptimizedVehicleTracker.detect_collisions` (reads the CURRENT track
set; in `detect_accidents` this is the final, post-sequence state). -/
def detect_collisions (cfg : TrackerCfg) (s : TrackerState) (frame_idx : ℤ) :
    List Indicator :=
  let active_tracks := s.tracks.filter (fun t => t.time_since_update = 0)
  (List.range active_tracks.length).flatMap (fun i =>
    ((List.range active_tracks.length).filter (fun j => i < j)).filterMap (fun j =>
      let track1 := active_tracks.getD i default
      let track2 := active_tracks.getD j default
      let iou := calculate_iou (last1 track1.bboxes (0, 0, 0, 0))
        (last1 track2.bboxes (0, 0, 0, 0))
      if cfg.collision_iou_threshold < iou then
        some { type := "collision"
               frame := frame_idx
               confidence := min 0.95 (0.6 + iou * 0.7)
               payload := .collision (track1.track_id, track2.track_id)
                 (track1.class_name, track2.class_name) iou }
      else none))

/-- `OptimizedVehicleTracker.detect_sudden_stops`. -/
def detect_sudden_stops (cfg : TrackerCfg) (s : TrackerState) (frame_idx : ℤ) :
    List Indicator :=
  s.tracks.filterMap (fun track =>
    if track.velocities.length < 2 then none
    else
      let recent_velocities := takeLast 3 track.velocities
      if 2 ≤ recent_velocities.length then
        let velocity_change := last1 recent_velocities 0 - recent_velocities.headD 0
        if velocity_change < cfg.sudden_stop_threshold then
          if track.get_current_velocity < 8.0 then
            some { type := "sudden_stop"
                   frame := frame_idx
                   confidence := min 0.90 (0.65 + |velocity_change| / 40.0)
                   payload := .suddenStop track.track_id track.class_name velocity_change }
          else none
        else none
      else none)

/-- `OptimizedVehicleTracker.detect_vehicle_clustering`. The detection
snapshot is read with the non-mutating `dict.get`, so the (unchanged)
tracker state is returned alongside the indicators. -/
def detect_vehicle_clustering (E : Ext) (cfg : TrackerCfg) (s : TrackerState)
    (frame_idx : ℤ) : List Indicator × TrackerState :=
  let dfd := fdGet s.frame_detections frame_idx
  let detections := dfd.1
  let s1 : TrackerState := { s with frame_detections := dfd.2 }
  if detections.length < 3 then ([], s1)
  else
    let positions := detections.map (fun d => (d.x, d.y))
    let closeIdxPairs := (List.range positions.length).flatMap (fun i =>
      ((List.range positions.length).filter (fun j => i < j)).filterMap (fun j =>
        if euclid E.sqrt (positions.getD i (0, 0)) (positions.getD j (0, 0)) <
            cfg.clustering_distance then some (i, j) else none))
    let close_pairs := closeIdxPairs.length
    let involved_vehicles :=
      (closeIdxPairs.map Prod.fst ++ closeIdxPairs.map Prod.snd).dedup
    if 2 ≤ close_pairs ∧ 3 ≤ involved_vehicles.length then
      ([{ type := "vehicle_clustering"
          frame := frame_idx
          confidence := min 0.80 (0.55 + (close_pairs : ℚ) * 0.10)
          payload := .clustering involved_vehicles.length close_pairs }], s1)
    else ([], s1)

/-- `np.diff` on a list of 2-d points. -/
def diffsP : List (ℚ × ℚ) → List (ℚ × ℚ)
  | a :: b :: rest => (b.1 - a.1, b.2 - a.2) :: diffsP (b :: rest)
  | _ => []

/-- `OptimizedVehicleTracker.detect_erratic_trajectories`; `E.acosd` is
`np.degrees ∘ np.arccos`, applied after the clip to `[-1, 1]`. -/
def detect_erratic_trajectories (E : Ext) (cfg : TrackerCfg) (s : TrackerState)
    (frame_idx : ℤ) : List Indicator :=
  s.tracks.filterMap (fun track =>
    if track.positions.length < 4 then none
    else
      let recent_positions := takeLast 4 track.positions
      if 3 ≤ recent_positions.length then
        let vectors := diffsP recent_positions
        let angles := (List.range (vectors.length - 1)).map (fun i =>
          let v1 := vectors.getD i (0, 0)
          let v2 := vectors.getD (i + 1) (0, 0)
          let cos_angle := (v1.1 * v2.1 + v1.2 * v2.2) /
            (euclid E.sqrt v1 (0, 0) * euclid E.sqrt v2 (0, 0) + 1 / 1000000)
          E.acosd (clip cos_angle (-1.0) 1.0))
        if 0 < angles.length then
          let avg_angle_change := angles.sum / (angles.length : ℚ)
          let max_angle_change := listMax angles
          if cfg.erratic_angle_threshold < max_angle_change ∨ 35 < avg_angle_change then
            some { type := "erratic_trajectory"
                   frame := frame_idx
                   confidence := min 0.85 (0.5 + max_angle_change / 150.0)
                   payload := .erraticTrajectory track.track_id track.class_name
                     max_angle_change avg_angle_change }
          else none
        else none
      else none)

/-- The `indicator_weights` dict lookup `indicator_weights.get(type, 0.5)`
of `detect_accidents`. -/
def indicatorWeight (t : String) : ℚ :=
  if t = "collision" then 1.0
  else if t = "sudden_stop" then 0.8
  else if t = "erratic_trajectory" then 0.75
  else if t = "vehicle_clustering" then 0.6
  else 0.5

/-- `indicator_counts[ind['type']] += 1` on a `defaultdict(int)` modelled
as an insertion-ordered association list. -/
def bumpCount : List (String × ℕ) → String → List (String × ℕ)
  | [], t => [(t, 1)]
  | (k, v) :: rest, t =>
      if k = t then (k, v + 1) :: rest else (k, v) :: bumpCount rest t

/-- `indicator_counts.get(t, 0)`. -/
def countGet (counts : List (String × ℕ)) (t : String) : ℕ :=
  ((counts.find? (fun p => p.1 = t)).map Prod.snd).getD 0

/-- The per-frame body of the indicator-collection loop in
`detect_accidents`: accumulates `(all_indicators, suspicious_frames, state)`. -/
def detectStep (E : Ext) (cfg : TrackerCfg)
    (acc : List Indicator × List ℤ × TrackerState) (frame_idx : ℤ) :
    List Indicator × List ℤ × TrackerState :=
  let collisions := detect_collisions cfg acc.2.2 frame_idx
  let susp1 := if collisions.length ≠ 0 then setAdd acc.2.1 frame_idx else acc.2.1
  let sudden_stops := detect_sudden_stops cfg acc.2.2 frame_idx
  let susp2 := if sudden_stops.length ≠ 0 then setAdd susp1 frame_idx else susp1
  let clres := detect_vehicle_clustering E cfg acc.2.2 frame_idx
  let susp3 := if clres.1.length ≠ 0 then setAdd susp2 frame_idx else susp2
  let erratic := detect_erratic_trajectories E cfg clres.2 frame_idx
  let susp4 := if erratic.length ≠ 0 then setAdd susp3 frame_idx else susp3
  (acc.1 ++ collisions ++ sudden_stops ++ clres.1 ++ erratic, susp4, clres.2)

/-- The dict returned by `OptimizedVehicleTracker.detect_accidents`. -/
structure AccidentReport where
  has_accident : Bool
  confidence : ℚ
  accident_frame_ratio : ℚ
  suspicious_frames : List ℤ
  total_frames : ℕ
  accident_indicators : List Indicator
  indicator_counts : List (String × ℕ)
  confirmed_tracks : ℕ
  total_detections : ℕ
  deriving Repr, DecidableEq, Inhabited

/-- `OptimizedVehicleTracker.detect_accidents`, with the tracker state
threaded through the detectors and returned so that absence of mutation is
a provable statement. -/
def detect_accidents (E : Ext) (cfg : TrackerCfg) (s : TrackerState) :
    AccidentReport × TrackerState :=
  let res := (sortedKeys s.frame_detections).foldl (detectStep E cfg) ([], [], s)
  let all_indicators := res.1
  let suspicious_frames := res.2.1
  let sFinal := res.2.2
  let total_frames := sFinal.frame_detections.length
  let accident_frame_ratio : ℚ :=
    if 0 < total_frames then (suspicious_frames.length : ℚ) / (total_frames : ℚ) else 0
  let final_confidence : ℚ :=
    if all_indicators.length ≠ 0 then
      let weighted_confidences :=
        all_indicators.map (fun ind => ind.confidence * indicatorWeight ind.type)
      let max_confidence := listMax weighted_confidences
      let avg_confidence := weighted_confidences.sum / (weighted_confidences.length : ℚ)
      0.6 * max_confidence + 0.4 * avg_confidence
    else 0.0
  let indicator_counts := all_indicators.foldl (fun c ind => bumpCount c ind.type) []
  let has_accident : Bool :=
    decide (0.50 < final_confidence) ||
    (decide (0.20 < accident_frame_ratio) && decide (0.40 < final_confidence)) ||
    decide (0 < countGet indicator_counts "collision") ||
    (decide (10 < countGet indicator_counts "erratic_trajectory") &&
      decide (0.35 < final_confidence)) ||
    (decide (0.70 < accident_frame_ratio) && decide (0.30 < final_confidence))
  ({ has_accident := has_accident
     confidence := final_confidence
     accident_frame_ratio := accident_frame_ratio
     suspicious_frames := suspicious_frames.insertionSort (· ≤ ·)
     total_frames := total_frames
     accident_indicators := all_indicators
     indicator_counts := indicator_counts
     confirmed_tracks :=
       (sFinal.tracks.filter (fun t => decide (cfg.min_hits ≤ t.hits))).length
     total_detections := (sFinal.frame_detections.map (fun p => p.2.length)).sum },
   sFinal)

/-- Executable square root on `ℚ`: `qsqrt q = ⌊sqrt (num·den)⌋ / den`.
Coincides with the real square root whenever the latter is rational (in
particular `qsqrt 0 = 0` and `qsqrt (n²) = n`), which covers every point at
which the concrete scenarios below evaluate it. -/
def qsqrt (q : ℚ) : ℚ := (Nat.sqrt (q.num.toNat * q.den) : ℚ) / (q.den : ℚ)

/-- All ways of choosing, in order, `n` pairwise-distinct elements of
`cols`. -/
def injections : ℕ → List ℕ → List (List ℕ)
  | 0, _ => [[]]
  | n + 1, cols =>
      cols.flatMap (fun c => (injections n (cols.erase c)).map (fun rest => c :: rest))

/-- First element (stable on ties) minimising `f`. -/
def pickMin (f : α → ℚ) : List α → Option α
  | [] => none
  | a :: rest =>
      match pickMin f rest with
      | none => some a
      | some b => if f b < f a then some b else some a

/-- Total cost of assigning row `i` to column `assign[i]`. -/
def sumCost (m : List (List ℚ)) (assign : List ℕ) : ℚ :=
  (assign.enum.map (fun p => matEntry m p.1 p.2)).sum

/-- Brute-force rectangular optimal assignment: a concrete, executable
model of `scipy.optimize.linear_sum_assignment` for the small matrices in
the concrete scenarios (global cost minimum, deterministic tie-break). -/
def lsaBrute (m : List (List ℚ)) : List (ℕ × ℕ) :=
  let n := m.length
  let cols := (m.headD []).length
  if n = 0 ∨ cols = 0 then []
  else if n ≤ cols then
    match pickMin (sumCost m) (injections n (List.range cols)) with
    | some assign => (List.range n).zip assign
    | none => []
  else
    match pickMin
        (fun rows => ((rows.zip (List.range cols)).map (fun p => matEntry m p.1 p.2)).sum)
        (injections cols (List.range n)) with
    | some rows => (rows.zip (List.range cols)).insertionSort (fun p q => p.1 ≤ q.1)
    | none => []

/-- The concrete external-function bundle used by the scenario theorems.
None of the concrete scenarios reaches `acosd` (no track ever accumulates
the four positions the erratic detector requires), and `qsqrt` is only
applied where the real square root is rational. -/
def extQ : Ext := { sqrt := qsqrt, acosd := fun _ => 0, lsa := lsaBrute }

/-- The constructor defaults of `OptimizedVehicleTracker`. -/
def defaultCfg : TrackerCfg := {}

/-- Scenario B input boxes: two unit-class `car` detections at frame 10
whose normalized boxes have IoU exactly 3/10. -/
def scnBoxes : List (ℚ × ℚ × ℚ × ℚ) :=
  [(0, 0, 10, 10), (70 / 13, 0, 70 / 13 + 10, 10)]

/-- Tracker state after processing the single frame 10 of Scenario B. -/
def sB : TrackerState :=
  (process_frame extQ defaultCfg TrackerState.init scnBoxes [0.9, 0.9] ["car", "car"] 10).1

/-- The report of Scenario B. -/
def reportB : AccidentReport := (detect_accidents extQ defaultCfg sB).1

/-- One-track state: a single `car` detection processed at frame 0. -/
def sOne : TrackerState :=
  (process_frame extQ defaultCfg TrackerState.init [(0, 0, 10, 10)] [0.9] ["car"] 0).1

/-- `sOne` after a frame with an empty raw detection list. -/
def sOneEmpty : TrackerState :=
  (process_frame extQ defaultCfg sOne [] [] [] 1).1

/-- One-track state built from a single zero-area `car` detection centred
at the origin (frame 0). -/
def sZeroCar : TrackerState :=
  (process_frame extQ defaultCfg TrackerState.init [(0, 0, 0, 0)] [0.9] ["car"] 0).1

/-- `sZeroCar` after a frame containing one zero-area `truck` detection at
the same centre: assignment cost `0.5·0 + 0.3·(1−0) + 0.2·2 = 0.7 ≥ 0.6`,
so the solver's proposed pair is gated out and the car track goes
unmatched. -/
def sZeroMiss : TrackerState :=
  (process_frame extQ defaultCfg sZeroCar [(0, 0, 0, 0)] [0.9] ["truck"] 1).1

end AccDet

namespace AccDet

/-! ### Claim C1 — Scenario B -/

/-- Claim C1: a detection sequence whose two tracks' bounding boxes overlap
with IoU = 3/10 on frame 10 (and are otherwise independent) yields, through
`process_frame` and `detect_accidents`, exactly one collision indicator,
with frame field 10, confidence `min(0.95, 0.6 + 0.3·0.7) = 0.81`, and
`has_accident = true` with the collision-count > 0 branch enabled. -/
theorem claim_C1 :
    calculate_iou (last1 (sB.tracks.getD 0 default).bboxes (0, 0, 0, 0))
        (last1 (sB.tracks.getD 1 default).bboxes (0, 0, 0, 0)) = 3 / 10 ∧
    reportB.accident_indicators =
      [{ type := "collision", frame := 10,
         confidence := min 0.95 (0.6 + (3 / 10) * 0.7),
         payload := .collision (0, 1) ("car", "car") (3 / 10) }] ∧
    min (0.95 : ℚ) (0.6 + (3 / 10) * 0.7) = 0.81 ∧
    0 < countGet reportB.indicator_counts "collision" ∧
    reportB.has_accident = true := by
  with_unfolding_all decide

/-! ### Claim C2 — behaviour on an empty normalized detection list -/

/-- Claim C2 counterexample: starting from a state with one live track
(`time_since_update = 0`, `hit_streak = 1`), processing a frame whose raw
and hence normalized detection list is empty leaves `time_since_update`
and `hit_streak` UNCHANGED — the track is not marked missed, contradicting
the claim that `time_since_update` is incremented and `hit_streak` reset. -/
theorem claim_C2_counterexample :
    sOne.tracks.map (fun t => (t.time_since_update, t.hit_streak)) = [(0, 1)] ∧
    normalizeDetections defaultCfg [] [] [] = [] ∧
    sOneEmpty.tracks.map (fun t => (t.time_since_update, t.hit_streak)) = [(0, 1)] ∧
    sOneEmpty.tracks.map (fun t => (t.time_since_update, t.hit_streak)) ≠ [(1, 0)] := by
  with_unfolding_all decide

/-- Claim C2 (amended): when the normalized detection list of a
`process_frame` call is empty, NO track is marked missed: the resulting
live track list is exactly the old one with every track's `age` bumped by
one (then passed through the usual prune filter), and `age`-bumping leaves
`time_since_update` and `hit_streak` untouched. -/
theorem claim_C2_amended (E : Ext) (cfg : TrackerCfg) (s : TrackerState)
    (boxes : List (ℚ × ℚ × ℚ × ℚ)) (confidences : List ℚ)
    (class_names : List String) (frame_idx : ℤ)
    (h : normalizeDetections cfg boxes confidences class_names = []) :
    (process_frame E cfg s boxes confidences class_names frame_idx).1.tracks =
      (s.tracks.map Track.ageTick).filter (fun t => decide (keepTrack cfg t)) ∧
    ∀ t : Track, (Track.ageTick t).time_since_update = t.time_since_update ∧
      (Track.ageTick t).hit_streak = t.hit_streak ∧
      (Track.ageTick t).age = t.age + 1 := by
  refine ⟨?_, fun t => ⟨rfl, rfl, rfl⟩⟩
  simp only [process_frame, process_frame_core, h]
  simp

/-- Witness for the amended Claim C2 at the concrete one-track state. -/
theorem claim_C2_amended_witness :
    normalizeDetections defaultCfg [] [] [] = [] ∧
    (process_frame extQ defaultCfg sOne [] [] [] 1).1.tracks =
      (sOne.tracks.map Track.ageTick).filter (fun t => decide (keepTrack defaultCfg t)) :=
  ⟨by with_unfolding_all decide,
   (claim_C2_amended extQ defaultCfg sOne [] [] [] 1 (by with_unfolding_all decide)).1⟩

/-! ### Structure of `detect_accidents` -/

/-- All indicators the four detectors emit for one frame (in the order
`detect_accidents` accumulates them). -/
def frameIndicators (E : Ext) (cfg : TrackerCfg) (s : TrackerState) (f : ℤ) :
    List Indicator :=
  detect_collisions cfg s f ++ detect_sudden_stops cfg s f ++
    (detect_vehicle_clustering E cfg s f).1 ++ detect_erratic_trajectories E cfg s f

lemma detect_vehicle_clustering_state (E : Ext) (cfg : TrackerCfg)
    (s : TrackerState) (f : ℤ) : (detect_vehicle_clustering E cfg s f).2 = s := by
  unfold detect_vehicle_clustering
  dsimp only
  split_ifs <;> rfl

lemma setAdd_idem (su : List ℤ) (f : ℤ) : setAdd (setAdd su f) f = setAdd su f := by
  unfold setAdd
  split_ifs <;> simp_all

lemma mem_setAdd {xs : List ℤ} {x a : ℤ} : a ∈ setAdd xs x ↔ a ∈ xs ∨ a = x := by
  unfold setAdd
  split_ifs with h
  · constructor
    · exact fun h' => Or.inl h'
    · rintro (h' | rfl)
      · exact h'
      · exact h
  · simp

lemma nodup_setAdd {xs : List ℤ} (x : ℤ) (h : xs.Nodup) : (setAdd xs x).Nodup := by
  unfold setAdd
  split_ifs with hx
  · exact h
  · simp [List.nodup_append, h, hx]

lemma detectStep_decomp (E : Ext) (cfg : TrackerCfg)
    (acc : List Indicator × List ℤ × TrackerState) (f : ℤ) :
    detectStep E cfg acc f =
      (acc.1 ++ frameIndicators E cfg acc.2.2 f,
       if frameIndicators E cfg acc.2.2 f = [] then acc.2.1 else setAdd acc.2.1 f,
       acc.2.2) := by
  obtain ⟨i, su, st⟩ := acc
  unfold detectStep frameIndicators
  dsimp only
  rw [detect_vehicle_clustering_state]
  by_cases hc : detect_collisions cfg st f = [] <;>
    by_cases hs : detect_sudden_stops cfg st f = [] <;>
      by_cases hcl : (detect_vehicle_clustering E cfg st f).1 = [] <;>
        by_cases he : detect_erratic_trajectories E cfg st f = [] <;>
          simp [hc, hs, hcl, he, setAdd_idem]

lemma foldl_detectStep (E : Ext) (cfg : TrackerCfg) (keys : List ℤ)
    (i : List Indicator) (su : List ℤ) (st : TrackerState) :
    keys.foldl (detectStep E cfg) (i, su, st) =
      (i ++ keys.flatMap (fun f => frameIndicators E cfg st f),
       keys.foldl
         (fun acc f => if frameIndicators E cfg st f = [] then acc else setAdd acc f) su,
       st) := by
  induction keys generalizing i su with
  | nil => simp
  | cons k ks ih =>
    rw [List.foldl_cons, detectStep_decomp, ih]
    simp [List.append_assoc]

lemma mem_foldl_susp (fi : ℤ → List Indicator) (keys : List ℤ) (su : List ℤ) (a : ℤ) :
    a ∈ keys.foldl (fun acc f => if fi f = [] then acc else setAdd acc f) su ↔
      a ∈ su ∨ (a ∈ keys ∧ fi a ≠ []) := by
  induction keys generalizing su with
  | nil => simp
  | cons k ks ih =>
    rw [List.foldl_cons]
    by_cases hk : fi k = []
    · rw [if_pos hk, ih]
      constructor
      · rintro (h | ⟨h1, h2⟩)
        · exact Or.inl h
        · exact Or.inr ⟨List.mem_cons_of_mem _ h1, h2⟩
      · rintro (h | ⟨h1, h2⟩)
        · exact Or.inl h
        · rcases List.mem_cons.mp h1 with rfl | h1
          · exact absurd hk h2
          · exact Or.inr ⟨h1, h2⟩
    · rw [if_neg hk, ih]
      constructor
      · rintro (h | ⟨h1, h2⟩)
        · rcases mem_setAdd.mp h with h' | rfl
          · exact Or.inl h'
          · exact Or.inr ⟨List.mem_cons_self _ _, hk⟩
        · exact Or.inr ⟨List.mem_cons_of_mem _ h1, h2⟩
      · rintro (h | ⟨h1, h2⟩)
        · exact Or.inl (mem_setAdd.mpr (Or.inl h))
        · rcases List.mem_cons.mp h1 with rfl | h1
          · exact Or.inl (mem_setAdd.mpr (Or.inr rfl))
          · exact Or.inr ⟨h1, h2⟩

lemma nodup_foldl_susp (fi : ℤ → List Indicator) (keys : List ℤ) (su : List ℤ)
    (h : su.Nodup) :
    (keys.foldl (fun acc f => if fi f = [] then acc else setAdd acc f) su).Nodup := by
  induction keys generalizing su with
  | nil => exact h
  | cons k ks ih =>
    rw [List.foldl_cons]
    split_ifs
    · exact ih su h
    · exact ih _ (nodup_setAdd k h)

/-- Closed form of `detect_accidents`: the indicator list is the
concatenation of the per-frame detector outputs over the final state, the
suspicious-frame set collects the frames with a non-empty output, and the
state is returned unchanged. -/
lemma detect_accidents_eq (E : Ext) (cfg : TrackerCfg) (s : TrackerState) :
    detect_accidents E cfg s =
      (let all_indicators := (sortedKeys s.frame_detections).flatMap
          (fun f => frameIndicators E cfg s f)
       let suspicious_frames := (sortedKeys s.frame_detections).foldl
          (fun acc f => if frameIndicators E cfg s f = [] then acc else setAdd acc f) []
       let total_frames := s.frame_detections.length
       let accident_frame_ratio : ℚ :=
         if 0 < total_frames then (suspicious_frames.length : ℚ) / (total_frames : ℚ)
         else 0
       let final_confidence : ℚ :=
         if all_indicators.length ≠ 0 then
           let weighted_confidences :=
             all_indicators.map (fun ind => ind.confidence * indicatorWeight ind.type)
           0.6 * listMax weighted_confidences +
             0.4 * (weighted_confidences.sum / (weighted_confidences.length : ℚ))
         else 0.0
       let indicator_counts := all_indicators.foldl (fun c ind => bumpCount c ind.type) []
       ({ has_accident :=
            decide (0.50 < final_confidence) ||
            (decide (0.20 < accident_frame_ratio) && decide (0.40 < final_confidence)) ||
            decide (0 < countGet indicator_counts "collision") ||
            (decide (10 < countGet indicator_counts "erratic_trajectory") &&
              decide (0.35 < final_confidence)) ||
            (decide (0.70 < accident_frame_ratio) && decide (0.30 < final_confidence))
          confidence := final_confidence
          accident_frame_ratio := accident_frame_ratio
          suspicious_frames := suspicious_frames.insertionSort (· ≤ ·)
          total_frames := total_frames
          accident_indicators := all_indicators
          indicator_counts := indicator_counts
          confirmed_tracks :=
            (s.tracks.filter (fun t => decide (cfg.min_hits ≤ t.hits))).length
          total_detections := (s.frame_detections.map (fun p => p.2.length)).sum },
       s)) := by
  unfold detect_accidents
  rw [foldl_detectStep]
  rfl

/-! ### Claim C10 — detect_accidents is read-only -/

/-- Claim C10: `detect_accidents` leaves the tracker state — the track
list, the frame-detection log (read via the non-inserting `dict.get`), and
`next_track_id` — exactly as it was, and consequently a second consecutive
call returns the same report. -/
theorem claim_C10 (E : Ext) (cfg : TrackerCfg) (s : TrackerState) :
    (detect_accidents E cfg s).2 = s ∧
    (detect_accidents E cfg s).2.tracks = s.tracks ∧
    (detect_accidents E cfg s).2.frame_detections = s.frame_detections ∧
    (detect_accidents E cfg s).2.next_track_id = s.next_track_id ∧
    (detect_accidents E cfg (detect_accidents E cfg s).2).1 =
      (detect_accidents E cfg s).1 := by
  have hstate : ∀ s' : TrackerState, (detect_accidents E cfg s').2 = s' := by
    intro s'
    rw [detect_accidents_eq]
  refine ⟨hstate s, ?_, ?_, ?_, ?_⟩ <;> rw [hstate s]

/-! ### Claim C8 — degenerate inputs produce a defined, negative report -/

/-- Claim C8: with zero logged frames, or with no indicator emitted over
the whole sequence, `detect_accidents` returns a defined report with
`has_accident = false`, `confidence = 0` and `accident_frame_ratio = 0`. -/
theorem claim_C8 (E : Ext) (cfg : TrackerCfg) (s : TrackerState)
    (h : s.frame_detections = [] ∨
      (detect_accidents E cfg s).1.accident_indicators = []) :
    (detect_accidents E cfg s).1.has_accident = false ∧
    (detect_accidents E cfg s).1.confidence = 0 ∧
    (detect_accidents E cfg s).1.accident_frame_ratio = 0 := by
  have hinds : (sortedKeys s.frame_detections).flatMap
      (fun f => frameIndicators E cfg s f) = [] := by
    rcases h with h | h
    · simp [sortedKeys, h, List.insertionSort]
    · rw [detect_accidents_eq] at h
      simpa using h
  have hall : ∀ f ∈ sortedKeys s.frame_detections, frameIndicators E cfg s f = [] := by
    intro f hf
    by_contra hne
    rcases List.exists_mem_of_ne_nil _ hne with ⟨x, hx⟩
    have : x ∈ (sortedKeys s.frame_detections).flatMap
        (fun f => frameIndicators E cfg s f) :=
      List.mem_flatMap.mpr ⟨f, hf, hx⟩
    rw [hinds] at this
    exact List.not_mem_nil x this
  have hsusp : (sortedKeys s.frame_detections).foldl
      (fun acc f => if frameIndicators E cfg s f = [] then acc else setAdd acc f) [] =
      [] := by
    refine List.eq_nil_iff_forall_not_mem.mpr (fun a ha => ?_)
    rcases (mem_foldl_susp (frameIndicators E cfg s) _ _ a).mp ha with h' | ⟨h1, h2⟩
    · exact List.not_mem_nil a h'
    · exact h2 (hall a h1)
  rw [detect_accidents_eq]
  simp only [hinds, hsusp, List.length_nil, List.foldl_nil, List.map_nil]
  refine ⟨?_, ?_, ?_⟩
  · simp only [ne_eq, not_true_eq_false, if_false, reduceIte]
    have c1 : ¬ ((0.50 : ℚ) < 0.0) := by norm_num
    have c2 : ¬ ((0.40 : ℚ) < 0.0) := by norm_num
    have c3 : ¬ ((0.35 : ℚ) < 0.0) := by norm_num
    have c4 : ¬ ((0.30 : ℚ) < 0.0) := by norm_num
    simp only [countGet, List.find?_nil, Option.map_none, Option.getD_none]
    simp [c1, c2, c3, c4]
  · norm_num
  · split_ifs <;> simp

/-- Witness for Claim C8: the freshly-constructed tracker has zero logged
frames, and its report is negative. -/
theorem claim_C8_witness :
    TrackerState.init.frame_detections = [] ∧
    (detect_accidents extQ defaultCfg TrackerState.init).1.has_accident = false ∧
    (detect_accidents extQ defaultCfg TrackerState.init).1.confidence = 0 ∧
    (detect_accidents extQ defaultCfg TrackerState.init).1.accident_frame_ratio = 0 :=
  ⟨rfl, claim_C8 extQ defaultCfg TrackerState.init (Or.inl rfl)⟩

/-! ### Counting and frame-stamp lemmas for Claim C3 -/

lemma countGet_nil (t : String) : countGet [] t = 0 := rfl

lemma countGet_cons (k : String) (v : ℕ) (rest : List (String × ℕ)) (t : String) :
    countGet ((k, v) :: rest) t = if k = t then v else countGet rest t := by
  unfold countGet
  by_cases h : k = t
  · rw [List.find?_cons_of_pos _ (by simpa using h)]
    simp [h]
  · rw [List.find?_cons_of_neg _ (by simpa using h)]
    simp [h]

lemma countGet_bumpCount (c : List (String × ℕ)) (ty t : String) :
    countGet (bumpCount c ty) t = countGet c t + (if ty = t then 1 else 0) := by
  induction c with
  | nil =>
    show countGet [(ty, 1)] t = countGet [] t + _
    rw [countGet_cons]
    split_ifs <;> simp [countGet]
  | cons p rest ih =>
    obtain ⟨k, v⟩ := p
    show countGet (if k = ty then (k, v + 1) :: rest else (k, v) :: bumpCount rest ty) t = _
    by_cases hk : k = ty
    · rw [if_pos hk, countGet_cons, countGet_cons]
      split_ifs with h1 h2 h2 <;> simp_all
    · rw [if_neg hk, countGet_cons, countGet_cons, ih]
      split_ifs with h1 h2 h2 <;> simp_all

lemma countGet_foldl_bump (l : List Indicator) (c : List (String × ℕ)) (t : String) :
    countGet (l.foldl (fun c ind => bumpCount c ind.type) c) t =
      countGet c t + l.countP (fun ind => ind.type = t) := by
  induction l generalizing c with
  | nil => simp
  | cons ind rest ih =>
    rw [List.foldl_cons, ih, countGet_bumpCount, List.countP_cons]
    simp only [decide_eq_true_eq]
    split_ifs <;> omega

lemma frame_of_mem_collisions {cfg : TrackerCfg} {s : TrackerState} {f : ℤ}
    {ind : Indicator} (h : ind ∈ detect_collisions cfg s f) : ind.frame = f := by
  unfold detect_collisions at h
  rcases List.mem_flatMap.mp h with ⟨i, _, hi⟩
  rcases List.mem_filterMap.mp hi with ⟨j, _, hj⟩
  dsimp only at hj
  split_ifs at hj
  cases hj
  rfl

lemma frame_of_mem_sudden {cfg : TrackerCfg} {s : TrackerState} {f : ℤ}
    {ind : Indicator} (h : ind ∈ detect_sudden_stops cfg s f) : ind.frame = f := by
  unfold detect_sudden_stops at h
  rcases List.mem_filterMap.mp h with ⟨tr, _, htr⟩
  dsimp only at htr
  split_ifs at htr
  cases htr
  rfl

lemma frame_of_mem_clustering {E : Ext} {cfg : TrackerCfg} {s : TrackerState}
    {f : ℤ} {ind : Indicator}
    (h : ind ∈ (detect_vehicle_clustering E cfg s f).1) : ind.frame = f := by
  unfold detect_vehicle_clustering at h
  dsimp only at h
  split_ifs at h <;> simp only [List.mem_singleton, List.not_mem_nil] at h
  subst h
  rfl

lemma frame_of_mem_erratic {E : Ext} {cfg : TrackerCfg} {s : TrackerState}
    {f : ℤ} {ind : Indicator}
    (h : ind ∈ detect_erratic_trajectories E cfg s f) : ind.frame = f := by
  unfold detect_erratic_trajectories at h
  rcases List.mem_filterMap.mp h with ⟨tr, _, htr⟩
  dsimp only at htr
  split_ifs at htr
  cases htr
  rfl

lemma frame_of_mem_frameIndicators {E : Ext} {cfg : TrackerCfg} {s : TrackerState}
    {f : ℤ} {ind : Indicator} (h : ind ∈ frameIndicators E cfg s f) :
    ind.frame = f := by
  unfold frameIndicators at h
  rcases List.mem_append.mp h with h | h
  · rcases List.mem_append.mp h with h | h
    · rcases List.mem_append.mp h with h | h
      · exact frame_of_mem_collisions h
      · exact frame_of_mem_sudden h
    · exact frame_of_mem_clustering h
  · exact frame_of_mem_erratic h

/-! ### Claim C3 — the decision-fusion formulas -/

/-- Claim C3: when at least one indicator exists, the weight table is
collision 1.0 / sudden_stop 0.8 / erratic_trajectory 0.75 /
vehicle_clustering 0.6 / default 0.5; the reported confidence is
`0.6·max(weighted) + 0.4·mean(weighted)` over
`weighted = confidence·weight`; `accident_frame_ratio` is the number of
distinct frames carrying at least one indicator divided by the number of
logged frames; and `has_accident` holds iff one of the five disjuncts of
the decision rule does. -/
theorem claim_C3 (E : Ext) (cfg : TrackerCfg) (s : TrackerState)
    (h : (detect_accidents E cfg s).1.accident_indicators ≠ []) :
    (indicatorWeight "collision" = 1 ∧ indicatorWeight "sudden_stop" = 0.8 ∧
     indicatorWeight "erratic_trajectory" = 0.75 ∧
     indicatorWeight "vehicle_clustering" = 0.6 ∧
     ∀ ty : String,
       ty ∉ ["collision", "sudden_stop", "erratic_trajectory", "vehicle_clustering"] →
       indicatorWeight ty = 0.5) ∧
    (detect_accidents E cfg s).1.confidence =
      0.6 * listMax ((detect_accidents E cfg s).1.accident_indicators.map
          (fun ind => ind.confidence * indicatorWeight ind.type)) +
        0.4 * (((detect_accidents E cfg s).1.accident_indicators.map
            (fun ind => ind.confidence * indicatorWeight ind.type)).sum /
          (((detect_accidents E cfg s).1.accident_indicators.map
            (fun ind => ind.confidence * indicatorWeight ind.type)).length : ℚ)) ∧
    ((detect_accidents E cfg s).1.accident_frame_ratio =
        ((detect_accidents E cfg s).1.suspicious_frames.length : ℚ) /
          (s.frame_detections.length : ℚ) ∧
      (detect_accidents E cfg s).1.suspicious_frames.Nodup ∧
      ∀ f : ℤ, f ∈ (detect_accidents E cfg s).1.suspicious_frames ↔
        ∃ ind ∈ (detect_accidents E cfg s).1.accident_indicators, ind.frame = f) ∧
    ((detect_accidents E cfg s).1.has_accident = true ↔
      (0.50 < (detect_accidents E cfg s).1.confidence ∨
       (0.20 < (detect_accidents E cfg s).1.accident_frame_ratio ∧
         0.40 < (detect_accidents E cfg s).1.confidence) ∨
       0 < (detect_accidents E cfg s).1.accident_indicators.countP
         (fun ind => ind.type = "collision") ∨
       (10 < (detect_accidents E cfg s).1.accident_indicators.countP
          (fun ind => ind.type = "erratic_trajectory") ∧
         0.35 < (detect_accidents E cfg s).1.confidence) ∨
       (0.70 < (detect_accidents E cfg s).1.accident_frame_ratio ∧
         0.30 < (detect_accidents E cfg s).1.confidence))) := by
  rw [detect_accidents_eq] at h ⊢
  dsimp only at h ⊢
  refine ⟨⟨by simp [indicatorWeight] <;> norm_num, by simp [indicatorWeight],
    by simp [indicatorWeight], by simp [indicatorWeight], ?_⟩,
    ?_, ⟨?_, ?_, ?_⟩, ?_⟩
  · intro ty hty
    simp only [List.mem_cons, List.mem_singleton, not_or] at hty
    obtain ⟨h1, h2, h3, h4, _⟩ := hty
    unfold indicatorWeight
    rw [if_neg h1, if_neg h2, if_neg h3, if_neg h4]
  · rw [if_pos (fun h0 => h (List.eq_nil_of_length_eq_zero h0))]
  · have hkeys : sortedKeys s.frame_detections ≠ [] := by
      intro hk
      rw [hk] at h
      exact h rfl
    have htot : 0 < s.frame_detections.length := by
      have hlen : (sortedKeys s.frame_detections).length = s.frame_detections.length := by
        unfold sortedKeys
        rw [(List.perm_insertionSort (α := ℤ) (· ≤ ·)
          (s.frame_detections.map Prod.fst)).length_eq, List.length_map]
      rcases Nat.eq_zero_or_pos s.frame_detections.length with h0 | h0
      · exact absurd (List.eq_nil_of_length_eq_zero (by rw [hlen, h0])) hkeys
      · exact h0
    rw [if_pos htot, (List.perm_insertionSort (α := ℤ) (· ≤ ·) _).length_eq]
  · exact ((List.perm_insertionSort (α := ℤ) (· ≤ ·) _).nodup_iff).mpr
      (nodup_foldl_susp _ _ _ List.nodup_nil)
  · intro f
    rw [(List.perm_insertionSort (α := ℤ) (· ≤ ·) _).mem_iff,
      mem_foldl_susp (frameIndicators E cfg s)]
    constructor
    · rintro (hf | ⟨hf, hne⟩)
      · exact absurd hf (List.not_mem_nil f)
      · rcases List.exists_mem_of_ne_nil _ hne with ⟨ind, hind⟩
        exact ⟨ind, List.mem_flatMap.mpr ⟨f, hf, hind⟩,
          frame_of_mem_frameIndicators hind⟩
    · rintro ⟨ind, hind, hfr⟩
      rcases List.mem_flatMap.mp hind with ⟨f', hf', hind'⟩
      have : f' = f := by rw [← hfr, frame_of_mem_frameIndicators hind']
      subst this
      exact Or.inr ⟨hf', List.ne_nil_of_mem hind'⟩
  · simp only [Bool.or_eq_true, Bool.and_eq_true, decide_eq_true_eq,
      countGet_foldl_bump, countGet_nil, Nat.zero_add, or_assoc]

/-- Witness for Claim C3 at the Scenario B state: its indicator list is
non-empty and the fused confidence follows the `0.6·max + 0.4·mean`
formula. -/
theorem claim_C3_witness :
    (detect_accidents extQ defaultCfg sB).1.accident_indicators ≠ [] ∧
    (detect_accidents extQ defaultCfg sB).1.confidence =
      0.6 * listMax ((detect_accidents extQ defaultCfg sB).1.accident_indicators.map
          (fun ind => ind.confidence * indicatorWeight ind.type)) +
        0.4 * (((detect_accidents extQ defaultCfg sB).1.accident_indicators.map
            (fun ind => ind.confidence * indicatorWeight ind.type)).sum /
          (((detect_accidents extQ defaultCfg sB).1.accident_indicators.map
            (fun ind => ind.confidence * indicatorWeight ind.type)).length : ℚ)) :=
  ⟨by with_unfolding_all decide,
   (claim_C3 extQ defaultCfg sB (by with_unfolding_all decide)).2.1⟩

/-! ### Claim C4 — the prune rule -/

/-- Claim C4: after a `process_frame` call the retained live-track set is
the prune filter of the pre-prune (association-phase) track list, and a
track is dropped by that filter iff `time_since_update ≥ max_age` AND
`hits < min_hits`; in particular (for `min_hits > 1`) a never-updated
track with `hits = 1` is dropped iff `time_since_update ≥ max_age`, and a
track with `hits ≥ min_hits` is always retained. -/
theorem claim_C4 (E : Ext) (cfg : TrackerCfg) (s : TrackerState)
    (boxes : List (ℚ × ℚ × ℚ × ℚ)) (confidences : List ℚ)
    (class_names : List String) (frame_idx : ℤ) :
    (process_frame E cfg s boxes confidences class_names frame_idx).1.tracks =
      (process_frame_core E cfg (s.tracks.map Track.ageTick)
        (normalizeDetections cfg boxes confidences class_names)
        s.next_track_id frame_idx).1.filter (fun t => decide (keepTrack cfg t)) ∧
    (∀ t ∈ (process_frame_core E cfg (s.tracks.map Track.ageTick)
        (normalizeDetections cfg boxes confidences class_names)
        s.next_track_id frame_idx).1,
      (t ∉ (process_frame E cfg s boxes confidences class_names frame_idx).1.tracks ↔
        (cfg.max_age ≤ t.time_since_update ∧ t.hits < cfg.min_hits))) ∧
    (∀ t ∈ (process_frame_core E cfg (s.tracks.map Track.ageTick)
        (normalizeDetections cfg boxes confidences class_names)
        s.next_track_id frame_idx).1,
      1 < cfg.min_hits → t.hits = 1 →
        (t ∉ (process_frame E cfg s boxes confidences class_names frame_idx).1.tracks ↔
          cfg.max_age ≤ t.time_since_update)) ∧
    (∀ t ∈ (process_frame_core E cfg (s.tracks.map Track.ageTick)
        (normalizeDetections cfg boxes confidences class_names)
        s.next_track_id frame_idx).1,
      cfg.min_hits ≤ t.hits →
        t ∈ (process_frame E cfg s boxes confidences class_names frame_idx).1.tracks) := by
  have hmem : ∀ t : Track,
      t ∈ (process_frame E cfg s boxes confidences class_names frame_idx).1.tracks ↔
        t ∈ (process_frame_core E cfg (s.tracks.map Track.ageTick)
          (normalizeDetections cfg boxes confidences class_names)
          s.next_track_id frame_idx).1 ∧ keepTrack cfg t := by
    intro t
    show t ∈ List.filter _ _ ↔ _
    rw [List.mem_filter, decide_eq_true_iff]
  refine ⟨rfl, fun t ht => ?_, fun t ht h1 h2 => ?_, fun t ht hh => ?_⟩
  · rw [hmem]
    unfold keepTrack
    constructor
    · intro hn
      by_contra hc
      push_neg at hc
      rcases Nat.lt_or_ge t.time_since_update cfg.max_age with hlt | hge
      · exact hn ⟨ht, Or.inl hlt⟩
      · exact hn ⟨ht, Or.inr (hc hge)⟩
    · rintro ⟨hge, hlt⟩ ⟨_, hk | hk⟩
      · omega
      · omega
  · rw [hmem]
    unfold keepTrack
    constructor
    · intro hn
      by_contra hc
      push_neg at hc
      exact hn ⟨ht, Or.inl hc⟩
    · rintro hge ⟨_, hk | hk⟩
      · omega
      · omega
  · exact (hmem t).mpr ⟨ht, Or.inr hh⟩

/-- Witness for Claim C4: in the single-frame scenario the freshly created
track (hits = 1, `time_since_update` = 0 < `max_age` = 3) is retained. -/
theorem claim_C4_witness :
    Track.init 0 (normalizeDetections defaultCfg [(0, 0, 10, 10)] [0.9] ["car"]).headI 0 ∈
      (process_frame extQ defaultCfg TrackerState.init
        [(0, 0, 10, 10)] [0.9] ["car"] 0).1.tracks := by
  have h := (claim_C4 extQ defaultCfg TrackerState.init
    [(0, 0, 10, 10)] [0.9] ["car"] 0).2.2.1
    (Track.init 0 (normalizeDetections defaultCfg [(0, 0, 10, 10)] [0.9] ["car"]).headI 0)
    (by with_unfolding_all decide)
    (by with_unfolding_all decide) (by with_unfolding_all decide)
  by_contra hn
  have h0 := h.mp hn
  revert h0
  with_unfolding_all decide

/-! ### Indexing lemmas for the association phase -/

lemma listModify_length (xs : List α) (i : ℕ) (f : α → α) :
    (listModify xs i f).length = xs.length := by
  induction xs generalizing i with
  | nil => rfl
  | cons x xs ih =>
    cases i with
    | zero => rfl
    | succ n => simp [listModify, ih]

lemma listModify_getD_ne (xs : List α) {i j : ℕ} (f : α → α) (d : α) (h : j ≠ i) :
    (listModify xs i f).getD j d = xs.getD j d := by
  induction xs generalizing i j with
  | nil => rfl
  | cons x xs ih =>
    cases i with
    | zero =>
      cases j with
      | zero => exact absurd rfl h
      | succ m => simp [listModify]
    | succ n =>
      cases j with
      | zero => simp [listModify]
      | succ m => simpa [listModify] using ih (fun hh => h (by rw [hh]))

lemma listModify_getD_eq (xs : List α) {i : ℕ} (f : α → α) (d : α)
    (h : i < xs.length) : (listModify xs i f).getD i d = f (xs.getD i d) := by
  induction xs generalizing i with
  | nil => exact absurd h (by simp)
  | cons x xs ih =>
    cases i with
    | zero => rfl
    | succ n => simpa [listModify] using ih (by simpa using h)

lemma getD_map (f : α → β) (xs : List α) {i : ℕ} (hi : i < xs.length)
    (d : β) (dα : α) : (xs.map f).getD i d = f (xs.getD i dα) := by
  induction xs generalizing i with
  | nil => exact absurd hi (by simp)
  | cons x xs ih =>
    cases i with
    | zero => rfl
    | succ n => simpa using ih (by simpa using hi)

lemma foldl_listModify_length (F : ℕ × ℕ → α → α) (ps : List (ℕ × ℕ)) (xs : List α) :
    (ps.foldl (fun acc p => listModify acc p.1 (F p)) xs).length = xs.length := by
  induction ps generalizing xs with
  | nil => rfl
  | cons q qs ih => rw [List.foldl_cons, ih, listModify_length]

lemma foldl_listModify_getD (F : ℕ × ℕ → α → α) (ps : List (ℕ × ℕ)) (xs : List α)
    (d : α) (hnd : (ps.map Prod.fst).Nodup) {i : ℕ} (hi : i < xs.length) :
    (ps.foldl (fun acc p => listModify acc p.1 (F p)) xs).getD i d =
      match ps.find? (fun p => p.1 = i) with
      | some p => F p (xs.getD i d)
      | none => xs.getD i d := by
  induction ps generalizing xs with
  | nil => rfl
  | cons q qs ih =>
    rw [List.map_cons, List.nodup_cons] at hnd
    rw [List.foldl_cons,
      ih _ hnd.2 (by rw [listModify_length]; exact hi)]
    by_cases hq : q.1 = i
    · have hnone : qs.find? (fun p => p.1 = i) = none := by
        rw [List.find?_eq_none]
        intro p hp
        simp only [decide_eq_true_eq]
        intro hpi
        exact hnd.1 (hq ▸ hpi ▸ List.mem_map_of_mem Prod.fst hp)
      rw [hnone, List.find?_cons_of_pos _ (by simpa using hq), hq,
        listModify_getD_eq _ _ _ hi]
    · rw [List.find?_cons_of_neg _ (by simpa using hq)]
      cases hfind : qs.find? (fun p => p.1 = i) <;>
        rw [listModify_getD_ne _ _ _ (fun hh => hq hh.symm)]

lemma enumFrom_map_getD (xs : List α) (g : ℕ → α → β) (n : ℕ) {i : ℕ}
    (hi : i < xs.length) (d : β) (dα : α) :
    ((xs.enumFrom n).map (fun it => g it.1 it.2)).getD i d = g (n + i) (xs.getD i dα) := by
  induction xs generalizing n i with
  | nil => exact absurd hi (by simp)
  | cons x xs ih =>
    cases i with
    | zero => simp [List.enumFrom]
    | succ m =>
      have := ih (n + 1) (i := m) (by simpa using hi)
      simpa [List.enumFrom, Nat.add_assoc, Nat.add_comm 1 m] using this

lemma enum_map_getD (xs : List α) (g : ℕ → α → β) {i : ℕ}
    (hi : i < xs.length) (d : β) (dα : α) :
    (xs.enum.map (fun it => g it.1 it.2)).getD i d = g i (xs.getD i dα) := by
  have := enumFrom_map_getD xs g 0 hi d dα
  simpa [List.enum] using this

lemma foldl_create_suffix (rs : List ℕ) (cond : ℕ → Bool)
    (g : ℕ → ℕ → Track) (acc : List Track × ℕ) :
    ∃ ys : List Track,
      (rs.foldl (fun acc j => if cond j then acc
        else (acc.1 ++ [g acc.2 j], acc.2 + 1)) acc).1 = acc.1 ++ ys := by
  induction rs generalizing acc with
  | nil => exact ⟨[], by simp⟩
  | cons r rs ih =>
    rw [List.foldl_cons]
    by_cases hc : cond r
    · rw [if_pos hc]; exact ih acc
    · rw [if_neg hc]
      rcases ih (acc.1 ++ [g acc.2 r], acc.2 + 1) with ⟨ys, hys⟩
      exact ⟨[g acc.2 r] ++ ys, by rw [hys]; simp⟩

/-- Characterization of the association phase: when both the (aged) track
list and the detection list are non-empty and the solver output has
pairwise-distinct track indices (scipy's contract), the pre-prune track at
index `i` is the update of track `i` with detection `j` when the solver
proposed `(i, j)` and its cost passed the 0.6 gate, and its
`mark_missed` image otherwise. -/
lemma process_frame_core_getD (E : Ext) (cfg : TrackerCfg) (tracks1 : List Track)
    (detections : List Detection) (nid : ℕ) (f : ℤ)
    (hD : 0 < detections.length)
    (hnd : ((E.lsa (calculate_cost_matrix E cfg tracks1 detections f)).map Prod.fst).Nodup)
    {i : ℕ} (hi : i < tracks1.length) :
    (process_frame_core E cfg tracks1 detections nid f).1.getD i default =
      match ((E.lsa (calculate_cost_matrix E cfg tracks1 detections f)).filter
          (fun p => matEntry (calculate_cost_matrix E cfg tracks1 detections f) p.1 p.2
            < 0.6)).find? (fun p => p.1 = i) with
      | some p =>
          (tracks1.getD i default).update E.sqrt (detections.getD p.2 default) f
      | none => (tracks1.getD i default).mark_missed := by
  have hT : 0 < tracks1.length := Nat.pos_of_ne_zero (by intro h0; rw [h0] at hi; omega)
  unfold process_frame_core
  rw [if_pos ⟨hT, hD⟩]
  dsimp only
  set M := calculate_cost_matrix E cfg tracks1 detections f with hM
  set accepted := (E.lsa M).filter (fun p => matEntry M p.1 p.2 < 0.6) with hacc
  have hndacc : (accepted.map Prod.fst).Nodup := by
    refine List.Nodup.sublist ?_ hnd
    exact (List.filter_sublist _).map Prod.fst
  set F : ℕ × ℕ → Track → Track :=
    fun p t => t.update E.sqrt (detections.getD p.2 default) f with hF
  set tracks2 := accepted.foldl (fun ts p => listModify ts p.1 (F p)) tracks1 with ht2
  have ht2len : tracks2.length = tracks1.length := foldl_listModify_length F accepted tracks1
  have ht2get := foldl_listModify_getD F accepted tracks1 default hndacc hi
  set tracks3 := tracks2.enum.map
    (fun it => if (accepted.map Prod.fst).contains it.1 then it.2 else it.2.mark_missed)
      with ht3
  have ht3get : tracks3.getD i default =
      if (accepted.map Prod.fst).contains i then tracks2.getD i default
      else (tracks2.getD i default).mark_missed := by
    rw [ht3]
    exact enum_map_getD tracks2
      (fun k t => if (accepted.map Prod.fst).contains k then t else t.mark_missed)
      (by rw [ht2len]; exact hi) default default
  rcases foldl_create_suffix (List.range detections.length)
      (fun j => (accepted.map Prod.snd).contains j)
      (fun n j => Track.init n (detections.getD j default) f) (tracks3, nid) with ⟨ys, hys⟩
  have hlen3 : i < tracks3.length := by
    rw [ht3, List.length_map, List.enum_length, ht2len]
    exact hi
  rw [hys, List.getD_append _ _ _ _ hlen3, ht3get]
  cases hfind : accepted.find? (fun p => p.1 = i) with
  | some p =>
    have hmem : i ∈ accepted.map Prod.fst := by
      have hp := List.mem_of_find?_eq_some hfind
      have hpi : p.1 = i := by
        have := List.find?_some hfind
        simpa using this
      exact hpi ▸ List.mem_map_of_mem Prod.fst hp
    rw [if_pos (by simpa [List.contains, List.elem_iff] using hmem), ht2get, hfind]
  | none =>
    have hnmem : i ∉ accepted.map Prod.fst := by
      intro hmem
      rcases List.mem_map.mp hmem with ⟨p, hp, hpi⟩
      have := List.find?_eq_none.mp hfind p hp
      simp [hpi] at this
    rw [if_neg (by simpa [List.contains, List.elem_iff] using hnmem), ht2get, hfind]

/-! ### Claim C5 — cost-matrix entries and the 0.6 assignment gate -/

/-- Claim C5: entry `(i, j)` of the cost matrix is
`0.5·(dist(predictᵢ, centerⱼ)/D_max) + 0.3·(1 − IoU) + 0.2·(1 if same
class else 2)`; and inside the association phase a solver-proposed pair is
applied as a track update iff its cost is strictly below 0.6. -/
theorem claim_C5 (E : Ext) (cfg : TrackerCfg) :
    (∀ (tracks : List Track) (detections : List Detection) (frame_idx : ℤ)
       (i j : ℕ), i < tracks.length → j < detections.length →
       matEntry (calculate_cost_matrix E cfg tracks detections frame_idx) i j =
         0.5 * (euclid E.sqrt ((tracks.getD i default).predict frame_idx)
             ((detections.getD j default).x, (detections.getD j default).y) /
           cfg.max_tracking_distance) +
         0.3 * (1 - calculate_iou (last1 (tracks.getD i default).bboxes (0, 0, 0, 0))
           (detections.getD j default).bbox) +
         0.2 * (if (tracks.getD i default).class_name =
             (detections.getD j default).class_name then 1 else 2)) ∧
    (∀ (tracks1 : List Track) (detections : List Detection) (nid : ℕ) (frame_idx : ℤ),
       ((E.lsa (calculate_cost_matrix E cfg tracks1 detections frame_idx)).map
         Prod.fst).Nodup →
       ∀ p ∈ E.lsa (calculate_cost_matrix E cfg tracks1 detections frame_idx),
         p.1 < tracks1.length → p.2 < detections.length →
         ((process_frame_core E cfg tracks1 detections nid frame_idx).1.getD p.1 default =
             (tracks1.getD p.1 default).update E.sqrt
               (detections.getD p.2 default) frame_idx ↔
           matEntry (calculate_cost_matrix E cfg tracks1 detections frame_idx) p.1 p.2
             < 0.6)) := by
  constructor
  · intro tracks detections frame_idx i j hi hj
    unfold calculate_cost_matrix
    rw [if_neg (by push_neg; omega)]
    unfold matEntry
    rw [getD_map _ _ hi _ default, getD_map _ _ hj _ default]
    norm_num
  · intro tracks1 detections nid frame_idx hnd p hp hp1 hp2
    have hD : 0 < detections.length := Nat.pos_of_ne_zero (by omega)
    rw [process_frame_core_getD E cfg tracks1 detections nid frame_idx hD hnd hp1]
    set M := calculate_cost_matrix E cfg tracks1 detections frame_idx with hM
    set accepted := (E.lsa M).filter (fun q => matEntry M q.1 q.2 < 0.6) with hacc
    cases hfind : accepted.find? (fun q => q.1 = p.1) with
    | some q =>
      have hq : q ∈ accepted := List.mem_of_find?_eq_some hfind
      have hq1 : q.1 = p.1 := by simpa using List.find?_some hfind
      have hqpairs : q ∈ E.lsa M := List.mem_of_mem_filter hq
      have hqp : q = p := List.inj_on_of_nodup_map hnd hqpairs hp hq1
      subst hqp
      show (tracks1.getD q.1 default).update E.sqrt (detections.getD q.2 default)
          frame_idx = _ ↔ _
      have := List.of_mem_filter hq
      simpa using this
    | none =>
      have hcost : ¬ matEntry M p.1 p.2 < 0.6 := by
        intro hlt
        have hpacc : p ∈ accepted :=
          List.mem_filter.mpr ⟨hp, by simpa using hlt⟩
        have := List.find?_eq_none.mp hfind p hpacc
        simp at this
      show (tracks1.getD p.1 default).mark_missed = _ ↔ _
      constructor
      · intro heq
        exfalso
        have h1 : ((tracks1.getD p.1 default).mark_missed).time_since_update =
            (tracks1.getD p.1 default).time_since_update + 1 := rfl
        have h2 : ((tracks1.getD p.1 default).update E.sqrt
            (detections.getD p.2 default) frame_idx).time_since_update = 0 := rfl
        rw [heq] at h1
        rw [h2] at h1
        omega
      · intro hlt
        exact absurd hlt hcost

/-- Witness for Claim C5 at the concrete 1×1 association of the
zero-area-box scenario: the only proposed pair has cost 0.7 ≥ 0.6 and is
not applied. -/
theorem claim_C5_witness :
    matEntry (calculate_cost_matrix extQ defaultCfg (sZeroCar.tracks.map Track.ageTick)
        (normalizeDetections defaultCfg [(0, 0, 0, 0)] [0.9] ["truck"]) 1) 0 0 =
      0.5 * (euclid extQ.sqrt
          (((sZeroCar.tracks.map Track.ageTick).getD 0 default).predict 1)
          (((normalizeDetections defaultCfg [(0, 0, 0, 0)] [0.9] ["truck"]).getD 0
              default).x,
           ((normalizeDetections defaultCfg [(0, 0, 0, 0)] [0.9] ["truck"]).getD 0
              default).y) / defaultCfg.max_tracking_distance) +
        0.3 * (1 - calculate_iou
          (last1 ((sZeroCar.tracks.map Track.ageTick).getD 0 default).bboxes (0, 0, 0, 0))
          ((normalizeDetections defaultCfg [(0, 0, 0, 0)] [0.9] ["truck"]).getD 0
            default).bbox) +
        0.2 * (if ((sZeroCar.tracks.map Track.ageTick).getD 0 default).class_name =
            ((normalizeDetections defaultCfg [(0, 0, 0, 0)] [0.9] ["truck"]).getD 0
              default).class_name then 1 else 2) :=
  (claim_C5 extQ defaultCfg).1 (sZeroCar.tracks.map Track.ageTick)
    (normalizeDetections defaultCfg [(0, 0, 0, 0)] [0.9] ["truck"]) 1 0 0
    (by with_unfolding_all decide) (by with_unfolding_all decide)

/-! ### Claim C9 — IoU properties -/

/-- Claim C9: `calculate_iou` is symmetric; it returns 1 on any box of
positive width and height compared with itself; and whenever the union
term is not positive (e.g. two zero-area boxes) it returns 0 instead of
dividing by zero. -/
theorem claim_C9 :
    (∀ a b : ℚ × ℚ × ℚ × ℚ, calculate_iou a b = calculate_iou b a) ∧
    (∀ b : ℚ × ℚ × ℚ × ℚ, 0 < b.2.2.1 → 0 < b.2.2.2 → calculate_iou b b = 1) ∧
    (∀ a b : ℚ × ℚ × ℚ × ℚ, iouUnion a b ≤ 0 → calculate_iou a b = 0) := by
  refine ⟨?_, ?_, ?_⟩
  · rintro ⟨x1, y1, w1, h1⟩ ⟨x2, y2, w2, h2⟩
    simp only [calculate_iou]
    rw [max_comm x2 x1, max_comm y2 y1, min_comm (x2 + w2) (x1 + w1),
      min_comm (y2 + h2) (y1 + h1),
      show (x2 + w2 - x2) * (y2 + h2 - y2) + (x1 + w1 - x1) * (y1 + h1 - y1) =
        (x1 + w1 - x1) * (y1 + h1 - y1) + (x2 + w2 - x2) * (y2 + h2 - y2) from by ring]
  · rintro ⟨x, y, w, h⟩ hw hh
    simp only at hw hh
    simp only [calculate_iou, max_self, min_self]
    rw [if_neg (by push_neg; constructor <;> linarith)]
    have harea : (0 : ℚ) < (x + w - x) * (y + h - y) := by
      have : (x + w - x) * (y + h - y) = w * h := by ring
      rw [this]; exact mul_pos hw hh
    rw [if_pos (by linarith)]
    field_simp
  · rintro ⟨x1, y1, w1, h1⟩ ⟨x2, y2, w2, h2⟩ hu
    simp only [iouUnion, iouIntersection] at hu
    simp only [calculate_iou]
    split_ifs with h1' h2'
    · rfl
    · exfalso
      have e : (x1 + w1 - x1) * (y1 + h1 - y1) + (x2 + w2 - x2) * (y2 + h2 - y2) -
          (min (x1 + w1) (x2 + w2) - max x1 x2) * (min (y1 + h1) (y2 + h2) - max y1 y2) =
          w1 * h1 + w2 * h2 -
          (min (x1 + w1) (x2 + w2) - max x1 x2) * (min (y1 + h1) (y2 + h2) - max y1 y2) := by
        ring
      rw [e] at h2'
      linarith
    · rfl

/-- Witness for Claim C9 at concrete boxes: IoU of the unit-ish box with
itself is 1, and two zero-area boxes give 0. -/
theorem claim_C9_witness :
    calculate_iou (0, 0, 2, 3) (0, 0, 2, 3) = 1 ∧
    calculate_iou (0, 0, 0, 0) (5, 5, 0, 0) = 0 :=
  ⟨claim_C9.2.1 (0, 0, 2, 3) (by norm_num) (by norm_num),
   claim_C9.2.2 (0, 0, 0, 0) (5, 5, 0, 0) (by norm_num [iouUnion, iouIntersection])⟩

/-! ### Claim C7 — the age counter -/

/-- Claim C7 counterexample: the track created at frame 0 has `age = 0`;
after ONE further `process_frame` call (frame 1, containing one detection
that the 0.6 gate rejects for this track) its `age` is 2, not 1: the aging
loop adds one and `mark_missed` adds another.  So `age` does not equal
"frames processed since creation", and a `process_frame` call can increase
a pre-existing track's age by two. -/
theorem claim_C7_counterexample :
    sZeroCar.tracks.map (fun t => (t.track_id, t.age)) = [(0, 0)] ∧
    sZeroMiss.tracks.map (fun t => (t.track_id, t.age)) = [(0, 2), (1, 0)] ∧
    (sZeroMiss.tracks.getD 0 default).age ≠ 1 := by
  with_unfolding_all decide

/-- Claim C7 (amended): during `process_frame`, a pre-existing live
track's `age` grows by exactly one when the normalized detection list is
empty (only the aging loop runs) or when the track is matched by a
gate-passing solver pair (the aging loop plus an `update`, which does not
touch `age`), and by exactly two when the frame has detections but the
track goes unmatched (`mark_missed` increments `age` again). -/
theorem claim_C7_amended (E : Ext) (cfg : TrackerCfg) (s : TrackerState)
    (boxes : List (ℚ × ℚ × ℚ × ℚ)) (confidences : List ℚ)
    (class_names : List String) (frame_idx : ℤ) (i : ℕ)
    (hi : i < s.tracks.length)
    (hnd : ((E.lsa (calculate_cost_matrix E cfg (s.tracks.map Track.ageTick)
      (normalizeDetections cfg boxes confidences class_names) frame_idx)).map
        Prod.fst).Nodup) :
    (normalizeDetections cfg boxes confidences class_names = [] →
      ((process_frame_core E cfg (s.tracks.map Track.ageTick)
          (normalizeDetections cfg boxes confidences class_names)
          s.next_track_id frame_idx).1.getD i default).age =
        (s.tracks.getD i default).age + 1) ∧
    (normalizeDetections cfg boxes confidences class_names ≠ [] →
      ((process_frame_core E cfg (s.tracks.map Track.ageTick)
          (normalizeDetections cfg boxes confidences class_names)
          s.next_track_id frame_idx).1.getD i default).age =
        (s.tracks.getD i default).age +
          (if (((E.lsa (calculate_cost_matrix E cfg (s.tracks.map Track.ageTick)
                (normalizeDetections cfg boxes confidences class_names) frame_idx)).filter
              (fun p => matEntry (calculate_cost_matrix E cfg (s.tracks.map Track.ageTick)
                (normalizeDetections cfg boxes confidences class_names) frame_idx)
                  p.1 p.2 < 0.6)).find? (fun p => p.1 = i)).isSome
           then 1 else 2)) := by
  set detections := normalizeDetections cfg boxes confidences class_names with hdets
  set tracks1 := s.tracks.map Track.ageTick with ht1
  have hi1 : i < tracks1.length := by rw [ht1, List.length_map]; exact hi
  have hage : tracks1.getD i default = Track.ageTick (s.tracks.getD i default) := by
    rw [ht1]; exact getD_map Track.ageTick s.tracks hi default default
  constructor
  · intro hempty
    unfold process_frame_core
    rw [if_neg (by rw [hempty]; simp), if_neg (by rw [hempty]; simp)]
    rw [hage]
    rfl
  · intro hne
    have hD : 0 < detections.length := List.length_pos.mpr hne
    rw [process_frame_core_getD E cfg tracks1 detections s.next_track_id frame_idx
      hD hnd hi1]
    cases hfind : ((E.lsa (calculate_cost_matrix E cfg tracks1 detections
        frame_idx)).filter (fun p => matEntry (calculate_cost_matrix E cfg tracks1
          detections frame_idx) p.1 p.2 < 0.6)).find? (fun p => p.1 = i) with
    | some q =>
      show ((tracks1.getD i default).update E.sqrt
        (detections.getD q.2 default) frame_idx).age = _
      rw [hage]
      rfl
    | none =>
      show ((tracks1.getD i default).mark_missed).age = _
      rw [hage]
      rfl

/-! ### Claim C6 — history-length invariants of `Track` -/

/-- One mutation of a `Track`: a successful match (`update`) or a miss
(`mark_missed`). -/
inductive TrackOp where
  | upd (detection : Detection) (frame_idx : ℤ)
  | miss
  deriving Repr, DecidableEq

/-- Whether an operation is an `update`. -/
def TrackOp.isUpd : TrackOp → Bool
  | .upd _ _ => true
  | .miss => false

/-- Apply a sequence of mutations to a track. -/
def applyOps (ssqrt : ℚ → ℚ) (t : Track) : List TrackOp → Track
  | [] => t
  | TrackOp.upd d f :: ops => applyOps ssqrt (t.update ssqrt d f) ops
  | TrackOp.miss :: ops => applyOps ssqrt t.mark_missed ops

/-- Every `update` in the sequence carries a frame index strictly greater
than the last recorded one. -/
def framesOk : ℤ → List TrackOp → Prop
  | _, [] => True
  | lf, TrackOp.upd _ f :: ops => lf < f ∧ framesOk f ops
  | lf, TrackOp.miss :: ops => framesOk lf ops

instance framesOkDec : (lf : ℤ) → (ops : List TrackOp) → Decidable (framesOk lf ops)
  | _, [] => .isTrue trivial
  | lf, TrackOp.upd _ f :: ops => @instDecidableAnd _ _ _ (framesOkDec f ops)
  | lf, TrackOp.miss :: ops => framesOkDec lf ops

/-- Number of observations a track has received: its creation plus its
updates. -/
def nObs (ops : List TrackOp) : ℕ := 1 + ops.countP (fun op => op.isUpd)

lemma dequeAppend_length (cap : ℕ) (xs : List α) (x : α) (h : xs.length ≤ cap)
    (hcap : 0 < cap) : (dequeAppend cap xs x).length = min (xs.length + 1) cap := by
  unfold dequeAppend
  split_ifs with hlt
  · simp only [List.length_append, List.length_singleton]
    omega
  · simp only [List.length_append, List.length_tail, List.length_singleton]
    omega

lemma last1_dequeAppend (cap : ℕ) (xs : List α) (x d : α) :
    last1 (dequeAppend cap xs x) d = x := by
  unfold dequeAppend last1
  split_ifs <;> simp

lemma last2_dequeAppend (cap : ℕ) (xs : List α) (x d : α)
    (h : xs.length < cap ∨ 2 ≤ xs.length) :
    last2 (dequeAppend cap xs x) d = last1 xs d := by
  unfold dequeAppend last2 last1
  split_ifs with hlt
  · rw [List.dropLast_concat]
  · have h2 : 2 ≤ xs.length := by
      rcases h with h | h
      · omega
      · exact h
    rw [List.dropLast_concat]
    cases xs with
    | nil => simp at h2
    | cons a l =>
      cases l with
      | nil => simp at h2
      | cons b l' => simp [List.getLastD_cons]

lemma getLast?_dequeAppend (cap : ℕ) (xs : List α) (x : α) :
    (dequeAppend cap xs x).getLast? = some x := by
  unfold dequeAppend
  split_ifs <;> exact List.getLast?_concat _

/-- Effect of `Track.update` on history lengths, under the length bounds
maintained by the buffers and a positive frame gap. -/
lemma update_lengths (ssqrt : ℚ → ℚ) (t : Track) (d : Detection) (f : ℤ)
    (hp : t.positions.length ≤ 30) (hf : t.frames.length ≤ 30)
    (hc : t.confidences.length ≤ 30) (hb : t.bboxes.length ≤ 30)
    (hv : t.velocities.length ≤ 29) (ha : t.accelerations.length ≤ 28)
    (h2 : 2 ≤ min (t.positions.length + 1) 30)
    (hdiff : 0 < f - last1 t.frames 0)
    (hlast2 : t.frames.length < 30 ∨ 2 ≤ t.frames.length) :
    (t.update ssqrt d f).positions.length = min (t.positions.length + 1) 30 ∧
    (t.update ssqrt d f).frames.length = min (t.frames.length + 1) 30 ∧
    (t.update ssqrt d f).confidences.length = min (t.confidences.length + 1) 30 ∧
    (t.update ssqrt d f).bboxes.length = min (t.bboxes.length + 1) 30 ∧
    (t.update ssqrt d f).velocities.length = min (t.velocities.length + 1) 29 ∧
    ((t.update ssqrt d f).accelerations.length =
      if 2 ≤ min (t.velocities.length + 1) 29 then min (t.accelerations.length + 1) 28
      else t.accelerations.length) ∧
    (t.update ssqrt d f).frames.getLast? = some f := by
  unfold Track.update
  dsimp only
  rw [if_pos (by rw [dequeAppend_length 30 t.positions _ hp (by omega)]; exact h2),
    last1_dequeAppend, last2_dequeAppend 30 t.frames f 0 hlast2, if_pos hdiff]
  rw [dequeAppend_length 29 t.velocities _ hv (by omega)]
  refine ⟨dequeAppend_length 30 t.positions _ hp (by omega),
    dequeAppend_length 30 t.frames _ hf (by omega),
    dequeAppend_length 30 t.confidences _ hc (by omega),
    dequeAppend_length 30 t.bboxes _ hb (by omega), ?_, ?_,
    getLast?_dequeAppend 30 t.frames f⟩
  · split_ifs <;>
      rw [dequeAppend_length 29 t.velocities _ hv (by omega)]
  · split_ifs with hcond
    · exact dequeAppend_length 28 t.accelerations _ ha (by omega)
    · rfl

/-- The length/last-frame invariant carried through an arbitrary operation
sequence; `n` is the number of observations received so far. -/
lemma applyOps_invariant (ssqrt : ℚ → ℚ) (ops : List TrackOp) :
    ∀ (t : Track) (n : ℕ) (lf : ℤ), 1 ≤ n →
    t.positions.length = min n 30 → t.frames.length = min n 30 →
    t.confidences.length = min n 30 → t.bboxes.length = min n 30 →
    t.velocities.length = min (n - 1) 29 →
    t.accelerations.length = min (n - 2) 28 →
    t.frames.getLast? = some lf →
    framesOk lf ops →
    (applyOps ssqrt t ops).positions.length =
        min (n + ops.countP (fun op => op.isUpd)) 30 ∧
      (applyOps ssqrt t ops).frames.length =
        min (n + ops.countP (fun op => op.isUpd)) 30 ∧
      (applyOps ssqrt t ops).confidences.length =
        min (n + ops.countP (fun op => op.isUpd)) 30 ∧
      (applyOps ssqrt t ops).bboxes.length =
        min (n + ops.countP (fun op => op.isUpd)) 30 ∧
      (applyOps ssqrt t ops).velocities.length =
        min (n + ops.countP (fun op => op.isUpd) - 1) 29 ∧
      (applyOps ssqrt t ops).accelerations.length =
        min (n + ops.countP (fun op => op.isUpd) - 2) 28 := by
  induction ops with
  | nil =>
    intro t n lf h1 hp hf hc hb hv ha hlast hok
    simpa using ⟨hp, hf, hc, hb, hv, ha⟩
  | cons op ops ih =>
    intro t n lf h1 hp hf hc hb hv ha hlast hok
    cases op with
    | miss =>
      have hcount : (TrackOp.miss :: ops).countP (fun op => op.isUpd) =
          ops.countP (fun op => op.isUpd) := by
        exact List.countP_cons_of_neg (p := fun op => op.isUpd) (a := TrackOp.miss) ops (by decide)
      rw [hcount]
      exact ih t.mark_missed n lf h1 hp hf hc hb hv ha hlast hok
    | upd d f =>
      obtain ⟨hok1, hok2⟩ := hok
      have hlast1 : last1 t.frames 0 = lf := by
        unfold last1
        rw [List.getLastD_eq_getLast?, hlast]
        rfl
      have hul := update_lengths ssqrt t d f (by omega) (by omega) (by omega)
        (by omega) (by omega) (by omega) (by omega)
        (by rw [hlast1]; omega) (by omega)
      obtain ⟨u1, u2, u3, u4, u5, u6, u7⟩ := hul
      have hcount : (TrackOp.upd d f :: ops).countP (fun op => op.isUpd) =
          ops.countP (fun op => op.isUpd) + 1 := by
        exact List.countP_cons_of_pos (p := fun op => op.isUpd) (a := TrackOp.upd d f) ops rfl
      rw [hcount]
      have hres := ih (t.update ssqrt d f) (n + 1) f (by omega)
        (by rw [u1, hp]; omega) (by rw [u2, hf]; omega)
        (by rw [u3, hc]; omega) (by rw [u4, hb]; omega)
        (by rw [u5, hv]; omega)
        (by rw [u6, hv, ha]; split_ifs <;> omega)
        u7 hok2
      have harith : n + 1 + ops.countP (fun op => op.isUpd) =
          n + (ops.countP (fun op => op.isUpd) + 1) := by omega
      rw [harith] at hres
      exact hres

/-- The four primary history buffers of `Track.update` are appended
unconditionally (independently of the velocity branch). -/
lemma update_primary_fields (ssqrt : ℚ → ℚ) (t : Track) (d : Detection) (f : ℤ) :
    (t.update ssqrt d f).positions = dequeAppend 30 t.positions (d.x, d.y) ∧
    (t.update ssqrt d f).frames = dequeAppend 30 t.frames f ∧
    (t.update ssqrt d f).confidences = dequeAppend 30 t.confidences d.confidence ∧
    (t.update ssqrt d f).bboxes = dequeAppend 30 t.bboxes d.bbox := by
  unfold Track.update
  exact ⟨rfl, rfl, rfl, rfl⟩

/-- The primary-buffer length invariant holds for EVERY operation
sequence, with no assumption on frame indices. -/
lemma applyOps_primary (ssqrt : ℚ → ℚ) (ops : List TrackOp) :
    ∀ t : Track,
    t.positions.length = t.frames.length →
    t.positions.length = t.confidences.length →
    t.positions.length = t.bboxes.length →
    t.positions.length ≤ 30 →
    ((applyOps ssqrt t ops).positions.length =
        (applyOps ssqrt t ops).frames.length ∧
      (applyOps ssqrt t ops).positions.length =
        (applyOps ssqrt t ops).confidences.length ∧
      (applyOps ssqrt t ops).positions.length =
        (applyOps ssqrt t ops).bboxes.length ∧
      (applyOps ssqrt t ops).positions.length ≤ 30) := by
  induction ops with
  | nil => exact fun t h1 h2 h3 h4 => ⟨h1, h2, h3, h4⟩
  | cons op ops ih =>
    intro t h1 h2 h3 h4
    cases op with
    | miss => exact ih t.mark_missed h1 h2 h3 h4
    | upd d f =>
      obtain ⟨u1, u2, u3, u4⟩ := update_primary_fields ssqrt t d f
      refine ih (t.update ssqrt d f) ?_ ?_ ?_ ?_ <;>
        rw [u1, dequeAppend_length 30 t.positions _ h4 (by omega)]
      · rw [u2, dequeAppend_length 30 t.frames _ (by omega) (by omega)]
        omega
      · rw [u3, dequeAppend_length 30 t.confidences _ (by omega) (by omega)]
        omega
      · rw [u4, dequeAppend_length 30 t.bboxes _ (by omega) (by omega)]
        omega
      · omega

/-- Claim C6: after any sequence of `update`/`mark_missed` calls, the four
primary history buffers of a track have equal lengths, all at most 30;
and, provided every `update` carries a frame index strictly greater than
the previous one, with at least 2 observations
`len velocities = len positions − 1 (≤ 29)`, and with at least 3
observations `len accelerations = len positions − 2 (≤ 28)`. -/
theorem claim_C6 (ssqrt : ℚ → ℚ) (track_id : ℕ) (d : Detection) (f0 : ℤ)
    (ops : List TrackOp) :
    ((applyOps ssqrt (Track.init track_id d f0) ops).positions.length =
        (applyOps ssqrt (Track.init track_id d f0) ops).frames.length ∧
      (applyOps ssqrt (Track.init track_id d f0) ops).positions.length =
        (applyOps ssqrt (Track.init track_id d f0) ops).confidences.length ∧
      (applyOps ssqrt (Track.init track_id d f0) ops).positions.length =
        (applyOps ssqrt (Track.init track_id d f0) ops).bboxes.length ∧
      (applyOps ssqrt (Track.init track_id d f0) ops).positions.length ≤ 30) ∧
    (framesOk f0 ops → 2 ≤ nObs ops →
      (applyOps ssqrt (Track.init track_id d f0) ops).velocities.length =
        (applyOps ssqrt (Track.init track_id d f0) ops).positions.length - 1 ∧
      (applyOps ssqrt (Track.init track_id d f0) ops).velocities.length ≤ 29) ∧
    (framesOk f0 ops → 3 ≤ nObs ops →
      (applyOps ssqrt (Track.init track_id d f0) ops).accelerations.length =
        (applyOps ssqrt (Track.init track_id d f0) ops).positions.length - 2 ∧
      (applyOps ssqrt (Track.init track_id d f0) ops).accelerations.length ≤ 28) := by
  have hprim := applyOps_primary ssqrt ops (Track.init track_id d f0)
    (by simp [Track.init]) (by simp [Track.init]) (by simp [Track.init])
    (by simp [Track.init])
  refine ⟨hprim, fun hframes h2 => ?_, fun hframes h3 => ?_⟩ <;>
    · have hinv := applyOps_invariant ssqrt ops (Track.init track_id d f0) 1 f0
        (by omega) (by simp [Track.init]) (by simp [Track.init]) (by simp [Track.init])
        (by simp [Track.init]) (by simp [Track.init]) (by simp [Track.init])
        (by simp [Track.init]) hframes
      obtain ⟨p1, p2, p3, p4, p5, p6⟩ := hinv
      have hn : nObs ops = 1 + ops.countP (fun op => op.isUpd) := rfl
      constructor <;> omega

/-- Concrete detection and operation sequence for the Claim C6 witness. -/
def dW : Detection :=
  { x := 0, y := 0, width := 0, height := 0, bbox := (0, 0, 0, 0),
    confidence := 1, class_name := "car" }

/-- Update at frame 1, miss, update at frame 3. -/
def opsW : List TrackOp := [TrackOp.upd dW 1, TrackOp.miss, TrackOp.upd dW 3]

/-- Witness for Claim C6 at a concrete three-observation run. -/
theorem claim_C6_witness :
    framesOk 0 opsW ∧
    (applyOps qsqrt (Track.init 7 dW 0) opsW).positions.length =
      (applyOps qsqrt (Track.init 7 dW 0) opsW).frames.length ∧
    2 ≤ nObs opsW ∧
    (applyOps qsqrt (Track.init 7 dW 0) opsW).velocities.length =
      (applyOps qsqrt (Track.init 7 dW 0) opsW).positions.length - 1 :=
  ⟨by decide, (claim_C6 qsqrt 7 dW 0 opsW).1.1, by decide,
   ((claim_C6 qsqrt 7 dW 0 opsW).2.1 (by decide) (by decide)).1⟩

/-- Witness for the amended Claim C7 at the zero-area-box scenario: on
frame 1 the sole detection is proposed to the sole track at cost 0.7, the
gate rejects it, no accepted pair has track index 0, and the track's age
grows by two. -/
theorem claim_C7_amended_witness :
    ((process_frame_core extQ defaultCfg (sZeroCar.tracks.map Track.ageTick)
        (normalizeDetections defaultCfg [(0, 0, 0, 0)] [0.9] ["truck"])
        sZeroCar.next_track_id 1).1.getD 0 default).age =
      (sZeroCar.tracks.getD 0 default).age +
        (if (((extQ.lsa (calculate_cost_matrix extQ defaultCfg
              (sZeroCar.tracks.map Track.ageTick)
              (normalizeDetections defaultCfg [(0, 0, 0, 0)] [0.9] ["truck"]) 1)).filter
            (fun p => matEntry (calculate_cost_matrix extQ defaultCfg
              (sZeroCar.tracks.map Track.ageTick)
              (normalizeDetections defaultCfg [(0, 0, 0, 0)] [0.9] ["truck"]) 1)
                p.1 p.2 < 0.6)).find? (fun p => p.1 = 0)).isSome
         then 1 else 2) :=
  (claim_C7_amended extQ defaultCfg sZeroCar [(0, 0, 0, 0)] [0.9] ["truck"] 1 0
    (by with_unfolding_all decide) (by with_unfolding_all decide)).2
    (by with_unfolding_all decide)

end AccDet
